import Mathlib

/-!
# Verification of the `uuidv8` Go library (github.com/ash3in/uuidv8)

A shallow embedding of the library's encode / decode / format / parse /
validate layer, together with theorems settling the specification claims.

Modelling conventions:
* a Go `[]byte` and a Go `string` are both `List Nat` with every entry
  below 256 (Go strings are byte sequences; all strings this library
  touches are ASCII);
* Go `uint64` / `uint16` values are `Nat`, with `% 2 ^ w` or `% 256`
  inserted exactly where the Go code performs a narrowing conversion
  such as `byte(x)`;
* fallible Go functions returning `(T, error)` become `Except String T`,
  with the error strings taken from the source;
* in-place writes to the 16-byte working buffer become `List.set`, and
  Go's `copy(dst[k:], src)` becomes `copySlice` below.
-/

namespace uuidv8

/-- Variant bits for RFC4122 (`variantRFC4122 = 0b10` in the source). -/
def variantRFC4122 : Nat := 2

/-- Version bits for UUIDv8 (`versionV8 = 0x8` in the source). -/
def versionV8 : Nat := 8

/-- Supported timestamp bit size: 32-bit timestamp. (Go `int` constant.) -/
def TimestampBits32 : Int := 32

/-- Supported timestamp bit size: 48-bit timestamp. -/
def TimestampBits48 : Int := 48

/-- Supported timestamp bit size: 60-bit timestamp. -/
def TimestampBits60 : Int := 60

/-- A parsed UUIDv8 object (struct `UUIDv8` in the source). -/
structure UUIDv8 where
  Timestamp : Nat
  ClockSeq : Nat
  Node : List Nat
deriving DecidableEq, Repr

/-- Models Go's `copy(dst[start:], src)`: overwrite `dst` from index
`start` with as many bytes of `src` as fit. -/
def copySlice (dst : List Nat) (start : Nat) (src : List Nat) : List Nat :=
  let n := min src.length (dst.length - start)
  dst.take start ++ src.take n ++ dst.drop (start + n)

/-- Helper `encodeTimestamp` from `helper.go`: write the timestamp into
the first bytes of the working buffer according to `timestampBits`.
`byte(timestamp >> k)` is `timestamp >>> k % 256`. -/
def encodeTimestamp (uuid : List Nat) (timestamp : Nat) (timestampBits : Int) :
    Except String (List Nat) :=
  if timestampBits = TimestampBits32 then
    .ok (((((uuid.set 0 (timestamp >>> 24 % 256)).set 1 (timestamp >>> 16 % 256)).set 2
      (timestamp >>> 8 % 256)).set 3 (timestamp % 256)).set 4 0 |>.set 5 0)
  else if timestampBits = TimestampBits48 then
    .ok ((((((uuid.set 0 (timestamp >>> 40 % 256)).set 1 (timestamp >>> 32 % 256)).set 2
      (timestamp >>> 24 % 256)).set 3 (timestamp >>> 16 % 256)).set 4
      (timestamp >>> 8 % 256)).set 5 (timestamp % 256))
  else if timestampBits = TimestampBits60 then
    .ok (((((((uuid.set 0 (timestamp >>> 52 % 256)).set 1 (timestamp >>> 44 % 256)).set 2
      (timestamp >>> 36 % 256)).set 3 (timestamp >>> 28 % 256)).set 4
      (timestamp >>> 20 % 256)).set 5 (timestamp >>> 12 % 256)).set 6 (timestamp >>> 4 % 256))
  else
    .error "unsupported timestamp bit size"

/-- Helper `decodeTimestamp` from `helper.go`: 48-bit big-endian value of
the first six bytes. -/
def decodeTimestamp (uuidBytes : List Nat) : Nat :=
  uuidBytes.getD 0 0 <<< 40 ||| uuidBytes.getD 1 0 <<< 32 ||| uuidBytes.getD 2 0 <<< 24 |||
    uuidBytes.getD 3 0 <<< 16 ||| uuidBytes.getD 4 0 <<< 8 ||| uuidBytes.getD 5 0

/-- Go's `encoding/hex` digit decoder (`fromHexChar`): `0`-`9`, `a`-`f`,
`A`-`F` accepted, anything else rejected. -/
def fromHexChar (c : Nat) : Option Nat :=
  if 48 ≤ c ∧ c ≤ 57 then some (c - 48)
  else if 97 ≤ c ∧ c ≤ 102 then some (c - 87)
  else if 65 ≤ c ∧ c ≤ 70 then some (c - 55)
  else none

/-- Go's `hex.DecodeString`: decode consecutive digit pairs into bytes;
fail on a non-hex byte or an odd-length input. -/
def hexDecode : List Nat → Except String (List Nat)
  | [] => .ok []
  | [_] => .error "odd length hex string"
  | a :: b :: rest =>
    match fromHexChar a, fromHexChar b with
    | some x, some y => (hexDecode rest).map fun l => (x <<< 4 ||| y) :: l
    | _, _ => .error "invalid byte"

/-- Helper `parseUUID` from `helper.go`: accept a 32-byte bare-hex string
or a 36-byte dashed string (dashes at 8, 13, 18, 23), strip the dashes
into a zero-initialised 32-byte buffer, and hex-decode. `45` is `'-'`. -/
def parseUUID (uuid : List Nat) : Except String (List Nat) :=
  if uuid.length = 32 then
    hexDecode uuid
  else if uuid.length = 36 then
    if uuid.getD 8 0 ≠ 45 ∨ uuid.getD 13 0 ≠ 45 ∨ uuid.getD 18 0 ≠ 45 ∨ uuid.getD 23 0 ≠ 45 then
      .error "invalid UUID format"
    else
      hexDecode ((uuid.filter (fun c => c != 45) ++ List.replicate 32 0).take 32)
  else
    .error "invalid UUID length"

/-- Helper `isAllZeroUUID` from `helper.go`. -/
def isAllZeroUUID (uuidBytes : List Nat) : Bool :=
  uuidBytes.all (fun b => b == 0)

/-- One lower-case hex digit, as the byte of its ASCII character. -/
def hexDigit (n : Nat) : Nat :=
  if n < 10 then 48 + n else 87 + n

/-- Lower-case hex expansion of a byte list, two digits per byte, as
produced by Go's `%x` verb on a `[]byte`. -/
def bytesHex : List Nat → List Nat
  | [] => []
  | b :: bs => hexDigit (b / 16 % 16) :: hexDigit (b % 16) :: bytesHex bs

/-- Helper `formatUUID` from `helper.go`:
`fmt.Sprintf("%08x-%04x-%04x-%04x-%012x", uuid[0:4], uuid[4:6], uuid[6:8],
uuid[8:10], uuid[10:16])`. Each group of 4/2/2/2/6 bytes prints as exactly
8/4/4/4/12 lower-case hex digits. -/
def formatUUID (uuid : List Nat) : List Nat :=
  bytesHex (uuid.take 4) ++ 45 :: bytesHex ((uuid.drop 4).take 2) ++ 45 ::
    bytesHex ((uuid.drop 6).take 2) ++ 45 :: bytesHex ((uuid.drop 8).take 2) ++ 45 ::
    bytesHex ((uuid.drop 10).take 6)

/-- The byte-buffer construction inside `NewWithParams` (`uuidv8.go`):
validate the node length, write the timestamp, overwrite byte 6 with
version and clock-sequence high bits, byte 7 with clock-sequence low
bits then the variant, and copy the node into bytes 8..13. -/
def newWithParamsBytes (timestamp : Nat) (clockSeq : Nat) (node : List Nat)
    (timestampBits : Int) : Except String (List Nat) :=
  if node.length ≠ 6 then
    .error "node must be 6 bytes"
  else
    match encodeTimestamp (List.replicate 16 0) timestamp timestampBits with
    | .error e => .error e
    | .ok uuid =>
      let uuid := uuid.set 6 (versionV8 <<< 4 ||| clockSeq >>> 8 % 256)
      let uuid := uuid.set 7 (clockSeq % 256)
      let uuid := uuid.set 7 (uuid.getD 7 0 &&& 0x3F ||| variantRFC4122 <<< 6)
      .ok (copySlice uuid 8 node)

/-- `NewWithParams` from `uuidv8.go`: build the 16-byte buffer and format
it as the canonical dashed string. -/
def NewWithParams (timestamp : Nat) (clockSeq : Nat) (node : List Nat)
    (timestampBits : Int) : Except String (List Nat) :=
  (newWithParamsBytes timestamp clockSeq node timestampBits).map formatUUID

/-- `FromString` from `uuidv8.go`: parse the text form, then decode the
48-bit timestamp, 12-bit clock sequence (low nibble of byte 6 and all of
byte 7) and the 6 node bytes. -/
def FromString (uuid : List Nat) : Except String UUIDv8 :=
  match parseUUID uuid with
  | .error e => .error ("failed to parse UUID: " ++ e)
  | .ok uuidBytes =>
    .ok { Timestamp := uuidBytes.getD 0 0 <<< 40 ||| uuidBytes.getD 1 0 <<< 32 |||
            uuidBytes.getD 2 0 <<< 24 ||| uuidBytes.getD 3 0 <<< 16 |||
            uuidBytes.getD 4 0 <<< 8 ||| uuidBytes.getD 5 0
          ClockSeq := (uuidBytes.getD 6 0 &&& 0x0F) <<< 8 ||| uuidBytes.getD 7 0
          Node := (uuidBytes.drop 8).take 6 }

/-- `FromStringOrNil` from `uuidv8.go`: like `FromString` but `none` on a
parse failure or an all-zero UUID. -/
def FromStringOrNil (uuid : List Nat) : Option UUIDv8 :=
  match parseUUID uuid with
  | .error _ => none
  | .ok uuidBytes =>
    if isAllZeroUUID uuidBytes then none
    else
      some { Timestamp := decodeTimestamp (uuidBytes.take 6)
             ClockSeq := (uuidBytes.getD 6 0 &&& 0x0F) <<< 8 ||| uuidBytes.getD 7 0
             Node := (uuidBytes.drop 8).take 6 }

/-- `IsValidUUIDv8` from `uuidv8.go`: parseable, not all-zero, version
nibble 8 in byte 6 and variant bits `10` in byte 7. -/
def IsValidUUIDv8 (uuid : List Nat) : Bool :=
  match parseUUID uuid with
  | .error _ => false
  | .ok uuidBytes =>
    if isAllZeroUUID uuidBytes then false
    else
      decide (uuidBytes.getD 6 0 >>> 4 = versionV8) &&
        decide (uuidBytes.getD 7 0 >>> 6 &&& 0x03 = variantRFC4122)

/-- `ToString` from `uuidv8.go`: rebuild the 16-byte buffer from the
struct fields (always at 48-bit timestamp width) and format it; returns
the empty string if `encodeTimestamp` fails (it cannot at width 48). -/
def ToString (uuidv8 : UUIDv8) : List Nat :=
  match encodeTimestamp (List.replicate 16 0) uuidv8.Timestamp TimestampBits48 with
  | .error _ => []
  | .ok uuid =>
    let uuid := uuid.set 6 (versionV8 <<< 4 ||| uuidv8.ClockSeq >>> 8 % 256)
    let uuid := uuid.set 7 (uuidv8.ClockSeq % 256)
    let uuid := uuid.set 7 (uuid.getD 7 0 &&& 0x3F ||| variantRFC4122 <<< 6)
    formatUUID (copySlice uuid 8 uuidv8.Node)

/-- `MarshalJSON` from `uuidv8.go` for a non-nil receiver: reject a node
that is not 6 bytes, a zero timestamp or a clock sequence above `0x0FFF`,
then emit the canonical string as a JSON string. `json.Marshal` of an
ASCII hex-and-dash string is the string wrapped in quotes (byte 34). -/
def MarshalJSON (u : UUIDv8) : Except String (List Nat) :=
  if u.Node.length ≠ 6 ∨ u.Timestamp = 0 ∨ u.ClockSeq > 0x0FFF then
    .error "object is not a valid UUIDv8"
  else
    let uuidStr := ToString u
    if IsValidUUIDv8 uuidStr then .ok (34 :: uuidStr ++ [34])
    else .error "string representation is not a valid UUIDv8"

/-- Spec-side predicate: the byte is an ASCII hex digit, in either case
(`0`-`9`, `a`-`f`, `A`-`F`). Used to state the parse acceptance claims. -/
def isHexByte (c : Nat) : Prop :=
  (48 ≤ c ∧ c ≤ 57) ∨ (97 ≤ c ∧ c ≤ 102) ∨ (65 ≤ c ∧ c ≤ 70)

instance (c : Nat) : Decidable (isHexByte c) := by
  unfold isHexByte
  infer_instance

instance {α : Type} [DecidableEq α] : DecidableEq (Except String α) := fun x y =>
  match x, y with
  | .error a, .error b =>
    if h : a = b then .isTrue (by rw [h]) else .isFalse (by intro he; cases he; exact h rfl)
  | .ok a, .ok b =>
    if h : a = b then .isTrue (by rw [h]) else .isFalse (by intro he; cases he; exact h rfl)
  | .error _, .ok _ => .isFalse (by intro he; cases he)
  | .ok _, .error _ => .isFalse (by intro he; cases he)

/-! ## Arithmetic and hex-digit lemmas -/

theorem lor_eq_add {a b : Nat} (k : Nat) (ha : a % 2 ^ k = 0) (hb : b < 2 ^ k) :
    a ||| b = a + b := by
  induction k generalizing a b with
  | zero =>
    simp only [pow_zero, Nat.lt_one_iff] at hb
    subst hb
    simp
  | succ k ih =>
    obtain ⟨m, hm⟩ := Nat.dvd_of_mod_eq_zero ha
    have hm2 : a = 2 * (2 ^ k * m) := by rw [hm, pow_succ]; ring
    have h2 : a % 2 = 0 := by rw [hm2]; exact Nat.mul_mod_right 2 _
    have ha2 : a / 2 % 2 ^ k = 0 := by
      rw [hm2, Nat.mul_div_cancel_left _ (by norm_num)]
      exact Nat.mul_mod_right _ _
    have hb2 : b / 2 < 2 ^ k := by
      rw [pow_succ] at hb
      exact (Nat.div_lt_iff_lt_mul (by norm_num)).mpr hb
    have hor2 : (a ||| b) % 2 = b % 2 := by
      have h1 := Nat.or_mod_two_eq_one (a := a) (b := b)
      have hx := Nat.mod_two_eq_zero_or_one (a ||| b)
      have hy := Nat.mod_two_eq_zero_or_one b
      omega
    have hdiv : (a ||| b) / 2 = a / 2 + b / 2 := by
      rw [Nat.or_div_two]
      exact ih ha2 hb2
    omega

theorem shiftLeft_lor_eq_add {b : Nat} (a k : Nat) (hb : b < 2 ^ k) :
    a <<< k ||| b = a <<< k + b :=
  lor_eq_add k (by rw [Nat.shiftLeft_eq]; exact Nat.mul_mod_left a (2 ^ k)) hb

theorem mod_sixteen_lt (m : Nat) : m % 16 < 16 :=
  Nat.mod_lt m (by norm_num)

theorem hexDigit_ne_dash (n : Nat) : hexDigit n ≠ 45 := by
  unfold hexDigit
  split <;> omega

theorem hexDigit_bne_dash (n : Nat) : (hexDigit n != 45) = true := by
  simpa using hexDigit_ne_dash n

theorem fromHexChar_hexDigit {r : Nat} (h : r < 16) : fromHexChar (hexDigit r) = some r := by
  interval_cases r <;> rfl

theorem hexPair_eq_mod (b : Nat) : (b / 16 % 16) <<< 4 ||| b % 16 = b % 256 := by
  have h := shiftLeft_lor_eq_add (b / 16 % 16) 4 (show b % 16 < 2 ^ 4 by omega)
  rw [h, Nat.shiftLeft_eq]
  omega

/-! ## Structure of `bytesHex` / `hexDecode` -/

theorem length_bytesHex (l : List Nat) : (bytesHex l).length = 2 * l.length := by
  induction l with
  | nil => rfl
  | cons b bs ih => simp [bytesHex, ih]; omega

theorem bytesHex_append (l₁ l₂ : List Nat) :
    bytesHex (l₁ ++ l₂) = bytesHex l₁ ++ bytesHex l₂ := by
  induction l₁ with
  | nil => rfl
  | cons b bs ih => simp [bytesHex, ih]

theorem filter_bytesHex (l : List Nat) :
    (bytesHex l).filter (fun c => c != 45) = bytesHex l := by
  induction l with
  | nil => rfl
  | cons b bs ih => simp [bytesHex, List.filter_cons, hexDigit_bne_dash, ih]

theorem hexDecode_bytesHex_append (l rest : List Nat) :
    hexDecode (bytesHex l ++ rest) =
      (hexDecode rest).map (fun r => l.map (· % 256) ++ r) := by
  induction l with
  | nil =>
    simp only [bytesHex, List.nil_append]
    cases hr : hexDecode rest <;> simp [hr, Except.map]
  | cons b bs ih =>
    have h1 : fromHexChar (hexDigit (b / 16 % 16)) = some (b / 16 % 16) :=
      fromHexChar_hexDigit (mod_sixteen_lt _)
    have h2 : fromHexChar (hexDigit (b % 16)) = some (b % 16) :=
      fromHexChar_hexDigit (mod_sixteen_lt _)
    simp only [bytesHex, List.cons_append, hexDecode, h1, h2, hexPair_eq_mod,
      List.append_eq]
    rw [ih]
    cases hr : hexDecode rest <;> simp [Except.map]

theorem hexDecode_bytesHex (l : List Nat) :
    hexDecode (bytesHex l) = .ok (l.map (· % 256)) := by
  have h := hexDecode_bytesHex_append l []
  simpa [hexDecode, Except.map] using h

/-! ## Indexing helpers -/

theorem getD_skip (A B : List Nat) (k m : Nat) (h : A.length = k) :
    (A ++ B).getD (k + m) 0 = B.getD m 0 := by
  rw [List.getD_append_right _ _ _ _ (by omega)]
  congr 1
  omega

theorem getD_middle (A B : List Nat) (x k : Nat) (h : A.length = k) :
    (A ++ ([x] ++ B)).getD k 0 = x := by
  rw [List.getD_append_right _ _ _ _ (by omega), h, Nat.sub_self]
  rfl

/-- `formatUUID` with the dashes written as singleton lists and the
appends nested to the right, for the indexing lemmas above. -/
theorem formatUUID_eq (uuid : List Nat) :
    formatUUID uuid = bytesHex (uuid.take 4) ++ ([45] ++ (bytesHex ((uuid.drop 4).take 2) ++
      ([45] ++ (bytesHex ((uuid.drop 6).take 2) ++ ([45] ++ (bytesHex ((uuid.drop 8).take 2) ++
      ([45] ++ bytesHex ((uuid.drop 10).take 6)))))))) := by
  simp [formatUUID]

/-! ## The parse∘format round trip -/

theorem parseUUID_formatUUID (u : List Nat) (h : u.length = 16) :
    parseUUID (formatUUID u) = .ok (u.map (· % 256)) := by
  have hg1 : (u.take 4).length = 4 := by simp [h]
  have hg2 : ((u.drop 4).take 2).length = 2 := by simp [h]
  have hg3 : ((u.drop 6).take 2).length = 2 := by simp [h]
  have hg4 : ((u.drop 8).take 2).length = 2 := by simp [h]
  have hg5 : ((u.drop 10).take 6).length = 6 := by simp [h]
  have hb1 : (bytesHex (u.take 4)).length = 8 := by rw [length_bytesHex, hg1]
  have hb2 : (bytesHex ((u.drop 4).take 2)).length = 4 := by rw [length_bytesHex, hg2]
  have hb3 : (bytesHex ((u.drop 6).take 2)).length = 4 := by rw [length_bytesHex, hg3]
  have hb4 : (bytesHex ((u.drop 8).take 2)).length = 4 := by rw [length_bytesHex, hg4]
  have hb5 : (bytesHex ((u.drop 10).take 6)).length = 12 := by rw [length_bytesHex, hg5]
  have hlen : (formatUUID u).length = 36 := by
    simp [formatUUID, hb1, hb2, hb3, hb4, hb5]
  have hcat : u.take 4 ++ ((u.drop 4).take 2 ++ ((u.drop 6).take 2 ++
      ((u.drop 8).take 2 ++ (u.drop 10).take 6))) = u := by
    have e5 : (u.drop 10).take 6 = u.drop 10 :=
      List.take_of_length_le (by simp [h])
    rw [e5, show (10 : Nat) = 8 + 2 by rfl, List.drop_take_append_drop,
      show (8 : Nat) = 6 + 2 by rfl, List.drop_take_append_drop,
      show (6 : Nat) = 4 + 2 by rfl, List.drop_take_append_drop,
      List.take_append_drop]
  have hstrip : (formatUUID u).filter (fun c => c != 45) = bytesHex u := by
    simp only [formatUUID, List.filter_append, List.filter_cons, filter_bytesHex]
    norm_num
    rw [← bytesHex_append, ← bytesHex_append, ← bytesHex_append, ← bytesHex_append, hcat]
  have hsl : ((formatUUID u).filter (fun c => c != 45)).length = 32 := by
    rw [hstrip, length_bytesHex, h]
  have hd8 : (formatUUID u).getD 8 0 = 45 := by
    rw [formatUUID_eq, getD_middle _ _ _ _ hb1]
  have hd13 : (formatUUID u).getD 13 0 = 45 := by
    rw [formatUUID_eq, show (13 : Nat) = 8 + 5 from rfl, getD_skip _ _ 8 5 hb1,
      show (5 : Nat) = 1 + 4 from rfl, getD_skip [45] _ 1 4 rfl,
      getD_middle _ _ _ 4 hb2]
  have hd18 : (formatUUID u).getD 18 0 = 45 := by
    rw [formatUUID_eq, show (18 : Nat) = 8 + 10 from rfl, getD_skip _ _ 8 10 hb1,
      show (10 : Nat) = 1 + 9 from rfl, getD_skip [45] _ 1 9 rfl,
      show (9 : Nat) = 4 + 5 from rfl, getD_skip _ _ 4 5 hb2,
      show (5 : Nat) = 1 + 4 from rfl, getD_skip [45] _ 1 4 rfl,
      getD_middle _ _ _ 4 hb3]
  have hd23 : (formatUUID u).getD 23 0 = 45 := by
    rw [formatUUID_eq, show (23 : Nat) = 8 + 15 from rfl, getD_skip _ _ 8 15 hb1,
      show (15 : Nat) = 1 + 14 from rfl, getD_skip [45] _ 1 14 rfl,
      show (14 : Nat) = 4 + 10 from rfl, getD_skip _ _ 4 10 hb2,
      show (10 : Nat) = 1 + 9 from rfl, getD_skip [45] _ 1 9 rfl,
      show (9 : Nat) = 4 + 5 from rfl, getD_skip _ _ 4 5 hb3,
      show (5 : Nat) = 1 + 4 from rfl, getD_skip [45] _ 1 4 rfl,
      getD_middle _ _ _ 4 hb4]
  unfold parseUUID
  simp only [hlen, hd8, hd13, hd18, hd23]
  norm_num
  rw [List.take_left' hsl, hstrip, hexDecode_bytesHex]

/-! ## Bitwise-to-arithmetic conversion for the decoder -/

theorem lor_bytes_eq_sum {b0 b1 b2 b3 b4 b5 : Nat} (h0 : b0 < 256) (h1 : b1 < 256)
    (h2 : b2 < 256) (h3 : b3 < 256) (h4 : b4 < 256) (h5 : b5 < 256) :
    b0 <<< 40 ||| b1 <<< 32 ||| b2 <<< 24 ||| b3 <<< 16 ||| b4 <<< 8 ||| b5 =
      b0 * 2 ^ 40 + b1 * 2 ^ 32 + b2 * 2 ^ 24 + b3 * 2 ^ 16 + b4 * 2 ^ 8 + b5 := by
  rw [Nat.or_assoc, Nat.or_assoc, Nat.or_assoc, Nat.or_assoc,
    Nat.shiftLeft_eq, Nat.shiftLeft_eq, Nat.shiftLeft_eq, Nat.shiftLeft_eq, Nat.shiftLeft_eq]
  have e5 : b4 * 2 ^ 8 ||| b5 = b4 * 2 ^ 8 + b5 := lor_eq_add 8 (by omega) (by omega)
  rw [e5]
  have e4 : b3 * 2 ^ 16 ||| (b4 * 2 ^ 8 + b5) = b3 * 2 ^ 16 + (b4 * 2 ^ 8 + b5) :=
    lor_eq_add 16 (by omega) (by omega)
  rw [e4]
  have e3 : b2 * 2 ^ 24 ||| (b3 * 2 ^ 16 + (b4 * 2 ^ 8 + b5)) =
      b2 * 2 ^ 24 + (b3 * 2 ^ 16 + (b4 * 2 ^ 8 + b5)) := lor_eq_add 24 (by omega) (by omega)
  rw [e3]
  have e2 : b1 * 2 ^ 32 ||| (b2 * 2 ^ 24 + (b3 * 2 ^ 16 + (b4 * 2 ^ 8 + b5))) =
      b1 * 2 ^ 32 + (b2 * 2 ^ 24 + (b3 * 2 ^ 16 + (b4 * 2 ^ 8 + b5))) :=
    lor_eq_add 32 (by omega) (by omega)
  rw [e2]
  have e1 : b0 * 2 ^ 40 ||| (b1 * 2 ^ 32 + (b2 * 2 ^ 24 + (b3 * 2 ^ 16 + (b4 * 2 ^ 8 + b5)))) =
      b0 * 2 ^ 40 + (b1 * 2 ^ 32 + (b2 * 2 ^ 24 + (b3 * 2 ^ 16 + (b4 * 2 ^ 8 + b5)))) :=
    lor_eq_add 40 (by omega) (by omega)
  rw [e1]
  omega

theorem decode48_of_bytes (t : Nat) :
    (t >>> 40 % 256) <<< 40 ||| (t >>> 32 % 256) <<< 32 ||| (t >>> 24 % 256) <<< 24 |||
      (t >>> 16 % 256) <<< 16 ||| (t >>> 8 % 256) <<< 8 ||| t % 256 = t % 2 ^ 48 := by
  rw [lor_bytes_eq_sum (by omega) (by omega) (by omega) (by omega) (by omega) (by omega)]
  simp only [Nat.shiftRight_eq_div_pow]
  omega

/-! ## Small bit-level facts about the version and variant bytes -/

theorem lor128_of_lt16 {x : Nat} (h : x < 16) : 128 ||| x = 128 + x :=
  lor_eq_add 4 (by norm_num) (by omega)

theorem byte7_variant_form (y : Nat) : y &&& 63 ||| 128 = y % 64 + 128 := by
  rw [show (63 : Nat) = 2 ^ 6 - 1 from rfl, Nat.and_pow_two_sub_one_eq_mod,
    Nat.or_comm, lor_eq_add 7 (by norm_num) (by omega)]
  omega

theorem version_nibble_of_lt16 {x : Nat} (h : x < 16) : (128 + x) >>> 4 = 8 := by
  rw [Nat.shiftRight_eq_div_pow]
  omega

theorem variant_bits_of_lt64 {y : Nat} (h : y < 64) : (y + 128) >>> 6 &&& 3 = 2 := by
  rw [Nat.shiftRight_eq_div_pow]
  have h2 : (y + 128) / 2 ^ 6 = 2 := by omega
  rw [h2]
  rfl

theorem low_nibble_of_lt16 {x : Nat} (h : x < 16) : (128 + x) &&& 15 = x := by
  rw [show (15 : Nat) = 2 ^ 4 - 1 from rfl, Nat.and_pow_two_sub_one_eq_mod]
  omega

theorem lor128_mod128 {x : Nat} (h : x < 256) : 128 ||| x = 128 + x % 128 := by
  rcases Nat.lt_or_ge x 128 with hx | hx
  · rw [lor_eq_add 7 (by norm_num) (by omega)]
    omega
  · have hr : x = 128 + x % 128 := by omega
    have h2 : (128 : Nat) ||| x % 128 = 128 + x % 128 := lor_eq_add 7 (by norm_num) (by omega)
    calc (128 : Nat) ||| x = 128 ||| (128 ||| x % 128) := by rw [h2, ← hr]
    _ = 128 ||| 128 ||| x % 128 := by rw [Nat.or_assoc]
    _ = 128 ||| x % 128 := by rw [Nat.or_self]
    _ = 128 + x % 128 := h2

/-! ## Shape of the encoder's byte buffer -/

theorem newWithParamsBytes_48 (t cs : Nat) (node : List Nat) (h : node.length = 6) :
    newWithParamsBytes t cs node TimestampBits48 =
      .ok ([t >>> 40 % 256, t >>> 32 % 256, t >>> 24 % 256, t >>> 16 % 256, t >>> 8 % 256,
        t % 256, 128 ||| cs >>> 8 % 256, cs % 256 &&& 63 ||| 128] ++ node ++ [0, 0]) := by
  unfold newWithParamsBytes
  rw [if_neg (by omega)]
  show Except.ok (copySlice [t >>> 40 % 256, t >>> 32 % 256, t >>> 24 % 256, t >>> 16 % 256,
    t >>> 8 % 256, t % 256, 128 ||| cs >>> 8 % 256, cs % 256 &&& 63 ||| 128,
    0, 0, 0, 0, 0, 0, 0, 0] 8 node) = _
  unfold copySlice
  simp only [h]
  norm_num
  omega

theorem newWithParamsBytes_32 (t cs : Nat) (node : List Nat) (h : node.length = 6) :
    newWithParamsBytes t cs node TimestampBits32 =
      .ok ([t >>> 24 % 256, t >>> 16 % 256, t >>> 8 % 256, t % 256, 0,
        0, 128 ||| cs >>> 8 % 256, cs % 256 &&& 63 ||| 128] ++ node ++ [0, 0]) := by
  unfold newWithParamsBytes
  rw [if_neg (by omega)]
  show Except.ok (copySlice [t >>> 24 % 256, t >>> 16 % 256, t >>> 8 % 256, t % 256,
    0, 0, 128 ||| cs >>> 8 % 256, cs % 256 &&& 63 ||| 128,
    0, 0, 0, 0, 0, 0, 0, 0] 8 node) = _
  unfold copySlice
  simp only [h]
  norm_num
  omega

/-- Byte 6 of the encoded buffer, in additive form, when the clock
sequence is in its documented 12-bit range. -/
theorem byte6_additive {cs : Nat} (hcs : cs ≤ 4095) :
    128 ||| cs >>> 8 % 256 = 128 + cs / 256 := by
  rw [Nat.shiftRight_eq_div_pow]
  have h1 : cs / 2 ^ 8 % 256 = cs / 256 := by omega
  rw [h1]
  exact lor128_of_lt16 (by omega)

/-- Byte 7 of the encoded buffer, in additive form. -/
theorem byte7_additive (cs : Nat) : cs % 256 &&& 63 ||| 128 = cs % 64 + 128 := by
  rw [byte7_variant_form]
  omega

theorem buffer_length (t0 t1 t2 t3 t4 t5 b6 b7 : Nat) {node : List Nat}
    (hnode : node.length = 6) :
    ([t0, t1, t2, t3, t4, t5, b6, b7] ++ node ++ [0, 0]).length = 16 := by
  simp [hnode]

theorem buffer_map_mod (t0 t1 t2 t3 t4 t5 cs : Nat) (node : List Nat)
    (hcs : cs ≤ 4095) (hb : ∀ x ∈ node, x < 256)
    (h0 : t0 < 256) (h1 : t1 < 256) (h2 : t2 < 256)
    (h3 : t3 < 256) (h4 : t4 < 256) (h5 : t5 < 256) :
    (([t0, t1, t2, t3, t4, t5, 128 + cs / 256, cs % 64 + 128] ++ node ++ [0, 0]).map
      (· % 256)) = [t0, t1, t2, t3, t4, t5, 128 + cs / 256, cs % 64 + 128] ++ node ++ [0, 0] := by
  have hn : node.map (· % 256) = node :=
    (List.map_congr_left fun x hx => Nat.mod_eq_of_lt (hb x hx)).trans (List.map_id node)
  have e6 : (128 + cs / 256) % 256 = 128 + cs / 256 := by omega
  have e7 : (cs % 64 + 128) % 256 = cs % 64 + 128 := by omega
  simp only [List.map_append, List.map_cons, List.map_nil, hn, e6, e7,
    Nat.mod_eq_of_lt h0, Nat.mod_eq_of_lt h1, Nat.mod_eq_of_lt h2, Nat.mod_eq_of_lt h3,
    Nat.mod_eq_of_lt h4, Nat.mod_eq_of_lt h5]

theorem buffer_parse (t0 t1 t2 t3 t4 t5 cs : Nat) (node : List Nat)
    (hcs : cs ≤ 4095) (hnode : node.length = 6) (hb : ∀ x ∈ node, x < 256)
    (h0 : t0 < 256) (h1 : t1 < 256) (h2 : t2 < 256)
    (h3 : t3 < 256) (h4 : t4 < 256) (h5 : t5 < 256) :
    parseUUID (formatUUID ([t0, t1, t2, t3, t4, t5, 128 + cs / 256, cs % 64 + 128] ++
      node ++ [0, 0])) =
      .ok ([t0, t1, t2, t3, t4, t5, 128 + cs / 256, cs % 64 + 128] ++ node ++ [0, 0]) := by
  rw [parseUUID_formatUUID _ (buffer_length _ _ _ _ _ _ _ _ hnode),
    buffer_map_mod _ _ _ _ _ _ _ _ hcs hb h0 h1 h2 h3 h4 h5]

theorem buffer_isValid (t0 t1 t2 t3 t4 t5 cs : Nat) (node : List Nat)
    (hcs : cs ≤ 4095) (hnode : node.length = 6) (hb : ∀ x ∈ node, x < 256)
    (h0 : t0 < 256) (h1 : t1 < 256) (h2 : t2 < 256)
    (h3 : t3 < 256) (h4 : t4 < 256) (h5 : t5 < 256) :
    IsValidUUIDv8 (formatUUID ([t0, t1, t2, t3, t4, t5, 128 + cs / 256, cs % 64 + 128] ++
      node ++ [0, 0])) = true := by
  unfold IsValidUUIDv8
  rw [buffer_parse _ _ _ _ _ _ _ _ hcs hnode hb h0 h1 h2 h3 h4 h5]
  have hz : isAllZeroUUID ([t0, t1, t2, t3, t4, t5, 128 + cs / 256, cs % 64 + 128] ++
      node ++ [0, 0]) = false := by
    rw [isAllZeroUUID, List.all_eq_false]
    refine ⟨128 + cs / 256, by simp, ?_⟩
    simp only [beq_iff_eq]
    omega
  simp only [versionV8, variantRFC4122]
  norm_num
  exact ⟨hz, version_nibble_of_lt16 (by omega), variant_bits_of_lt64 (by omega)⟩

theorem newWithParamsBytes_60 (t cs : Nat) (node : List Nat) (h : node.length = 6) :
    newWithParamsBytes t cs node TimestampBits60 =
      .ok ([t >>> 52 % 256, t >>> 44 % 256, t >>> 36 % 256, t >>> 28 % 256, t >>> 20 % 256,
        t >>> 12 % 256, 128 ||| cs >>> 8 % 256, cs % 256 &&& 63 ||| 128] ++ node ++ [0, 0]) := by
  unfold newWithParamsBytes
  rw [if_neg (by omega)]
  show Except.ok (copySlice [t >>> 52 % 256, t >>> 44 % 256, t >>> 36 % 256, t >>> 28 % 256,
    t >>> 20 % 256, t >>> 12 % 256, 128 ||| cs >>> 8 % 256, cs % 256 &&& 63 ||| 128,
    0, 0, 0, 0, 0, 0, 0, 0] 8 node) = _
  unfold copySlice
  simp only [h]
  norm_num
  omega

/-- Composing `FromString` with a successful parse. -/
theorem FromString_parse_ok {s b : List Nat} (hp : parseUUID s = .ok b) :
    FromString s = .ok ⟨b.getD 0 0 <<< 40 ||| b.getD 1 0 <<< 32 ||| b.getD 2 0 <<< 24 |||
      b.getD 3 0 <<< 16 ||| b.getD 4 0 <<< 8 ||| b.getD 5 0,
      (b.getD 6 0 &&& 0x0F) <<< 8 ||| b.getD 7 0, (b.drop 8).take 6⟩ := by
  unfold FromString
  rw [hp]

/-! ## Claim theorems -/

/-- **C1** (amended). Round trip at width 48: for valid inputs (node of
length 6, clock_seq at most 4095), decoding the parse of the format of
the encoding reproduces `node` exactly and `timestamp` truncated to 48
bits, and reproduces `clock_seq` with bits 6 and 7 of its low byte
overwritten by the variant pattern `10`: the decoded clock sequence is
`clock_seq / 256 * 256 + (clock_seq % 64 + 128)`, not `clock_seq` itself. -/
theorem C1_roundtrip_width48 (timestamp clockSeq : Nat) (node : List Nat)
    (hcs : clockSeq ≤ 4095) (hnode : node.length = 6) (hb : ∀ x ∈ node, x < 256) :
    ∃ s, NewWithParams timestamp clockSeq node TimestampBits48 = .ok s ∧
      FromString s = .ok ⟨timestamp % 2 ^ 48,
        clockSeq / 256 * 256 + (clockSeq % 64 + 128), node⟩ := by
  have hbytes := newWithParamsBytes_48 timestamp clockSeq node hnode
  rw [byte6_additive hcs, byte7_additive] at hbytes
  refine ⟨formatUUID ([timestamp >>> 40 % 256, timestamp >>> 32 % 256, timestamp >>> 24 % 256,
    timestamp >>> 16 % 256, timestamp >>> 8 % 256, timestamp % 256, 128 + clockSeq / 256,
    clockSeq % 64 + 128] ++ node ++ [0, 0]), ?_, ?_⟩
  · rw [NewWithParams, hbytes]
    rfl
  · have hp := buffer_parse (timestamp >>> 40 % 256) (timestamp >>> 32 % 256)
      (timestamp >>> 24 % 256) (timestamp >>> 16 % 256) (timestamp >>> 8 % 256)
      (timestamp % 256) clockSeq node hcs hnode hb
      (by omega) (by omega) (by omega) (by omega) (by omega) (by omega)
    rw [FromString_parse_ok hp]
    simp only [Except.ok.injEq, UUIDv8.mk.injEq]
    refine ⟨?_, ?_, ?_⟩
    · show (timestamp >>> 40 % 256) <<< 40 ||| (timestamp >>> 32 % 256) <<< 32 |||
        (timestamp >>> 24 % 256) <<< 24 ||| (timestamp >>> 16 % 256) <<< 16 |||
        (timestamp >>> 8 % 256) <<< 8 ||| timestamp % 256 = timestamp % 2 ^ 48
      exact decode48_of_bytes timestamp
    · show ((128 + clockSeq / 256) &&& 0x0F) <<< 8 ||| (clockSeq % 64 + 128) =
        clockSeq / 256 * 256 + (clockSeq % 64 + 128)
      rw [low_nibble_of_lt16 (by omega), shiftLeft_lor_eq_add _ 8 (by omega), Nat.shiftLeft_eq]
    · exact List.take_left' hnode

/-- **C1** counterexample to the claim as stated: at
`timestamp = 1, clock_seq = 0, node = [1,2,3,4,5,6]`, width 48, the
decoded clock sequence is 128, not 0. -/
theorem C1_counterexample :
    (FromString ((NewWithParams 1 0 [1, 2, 3, 4, 5, 6] TimestampBits48).toOption.getD
      [])).toOption.map UUIDv8.ClockSeq = some 128 ∧
    (FromString ((NewWithParams 1 0 [1, 2, 3, 4, 5, 6] TimestampBits48).toOption.getD
      [])).toOption.map UUIDv8.ClockSeq ≠ some 0 := by
  decide

/-- Witness for `C1_roundtrip_width48` at a concrete input. -/
theorem C1_witness :
    ((5 : Nat) ≤ 4095 ∧ ([1, 2, 3, 4, 5, 6] : List Nat).length = 6) ∧
    ∃ s, NewWithParams 9 5 [1, 2, 3, 4, 5, 6] TimestampBits48 = .ok s ∧
      FromString s = .ok ⟨9 % 2 ^ 48, 5 / 256 * 256 + (5 % 64 + 128), [1, 2, 3, 4, 5, 6]⟩ :=
  ⟨⟨by norm_num, by norm_num⟩,
    C1_roundtrip_width48 9 5 [1, 2, 3, 4, 5, 6] (by norm_num) (by norm_num) (by decide)⟩

/-- **C2** (amended). For every timestamp, every clock_seq at most 4095
(rather than any `uint16`: values with bits 12-14 set leak into the
version nibble), every node of length 6 and every supported width, the
encoded buffer has version nibble 8 in byte 6 and variant bits `10` in
byte 7, and `IsValidUUIDv8` accepts the string produced by
`NewWithParams` when the timestamp is nonzero. -/
theorem C2_version_variant (timestamp clockSeq : Nat) (node : List Nat) (timestampBits : Int)
    (hcs : clockSeq ≤ 4095) (hnode : node.length = 6) (hb : ∀ x ∈ node, x < 256)
    (hw : timestampBits = TimestampBits32 ∨ timestampBits = TimestampBits48 ∨
      timestampBits = TimestampBits60) :
    (∃ b, newWithParamsBytes timestamp clockSeq node timestampBits = .ok b ∧
        b.getD 6 0 >>> 4 = versionV8 ∧ b.getD 7 0 >>> 6 &&& 3 = variantRFC4122) ∧
      (timestamp ≠ 0 → ∀ s, NewWithParams timestamp clockSeq node timestampBits = .ok s →
        IsValidUUIDv8 s = true) := by
  rcases hw with hw | hw | hw
  · subst hw
    have hby := newWithParamsBytes_32 timestamp clockSeq node hnode
    rw [byte6_additive hcs, byte7_additive] at hby
    refine ⟨⟨_, hby, ?_, ?_⟩, ?_⟩
    · show (128 + clockSeq / 256) >>> 4 = versionV8
      exact version_nibble_of_lt16 (by omega)
    · show (clockSeq % 64 + 128) >>> 6 &&& 3 = variantRFC4122
      exact variant_bits_of_lt64 (by omega)
    · intro ht s hs
      rw [NewWithParams, hby] at hs
      simp only [Except.map, Except.ok.injEq] at hs
      subst hs
      exact buffer_isValid _ _ _ _ _ _ _ _ hcs hnode hb
        (by omega) (by omega) (by omega) (by omega) (by omega) (by omega)
  · subst hw
    have hby := newWithParamsBytes_48 timestamp clockSeq node hnode
    rw [byte6_additive hcs, byte7_additive] at hby
    refine ⟨⟨_, hby, ?_, ?_⟩, ?_⟩
    · show (128 + clockSeq / 256) >>> 4 = versionV8
      exact version_nibble_of_lt16 (by omega)
    · show (clockSeq % 64 + 128) >>> 6 &&& 3 = variantRFC4122
      exact variant_bits_of_lt64 (by omega)
    · intro ht s hs
      rw [NewWithParams, hby] at hs
      simp only [Except.map, Except.ok.injEq] at hs
      subst hs
      exact buffer_isValid _ _ _ _ _ _ _ _ hcs hnode hb
        (by omega) (by omega) (by omega) (by omega) (by omega) (by omega)
  · subst hw
    have hby := newWithParamsBytes_60 timestamp clockSeq node hnode
    rw [byte6_additive hcs, byte7_additive] at hby
    refine ⟨⟨_, hby, ?_, ?_⟩, ?_⟩
    · show (128 + clockSeq / 256) >>> 4 = versionV8
      exact version_nibble_of_lt16 (by omega)
    · show (clockSeq % 64 + 128) >>> 6 &&& 3 = variantRFC4122
      exact variant_bits_of_lt64 (by omega)
    · intro ht s hs
      rw [NewWithParams, hby] at hs
      simp only [Except.map, Except.ok.injEq] at hs
      subst hs
      exact buffer_isValid _ _ _ _ _ _ _ _ hcs hnode hb
        (by omega) (by omega) (by omega) (by omega) (by omega) (by omega)

/-- **C2** counterexample to the claim as stated: with
`clock_seq = 4096` (a `uint16` value) and nonzero timestamp, the
generated string is rejected by the validator, because bit 12 of the
clock sequence lands in the version nibble. -/
theorem C2_counterexample :
    IsValidUUIDv8 ((NewWithParams 1 4096 [1, 2, 3, 4, 5, 6]
      TimestampBits48).toOption.getD []) = false := by
  decide

/-- Witness for `C2_version_variant` at a concrete input. -/
theorem C2_witness :
    (1 : Nat) ≠ 0 ∧ IsValidUUIDv8 ((NewWithParams 1 4095 [1, 2, 3, 4, 5, 6]
      TimestampBits48).toOption.getD []) = true := by
  refine ⟨one_ne_zero, ?_⟩
  have h := C2_version_variant 1 4095 [1, 2, 3, 4, 5, 6] TimestampBits48
    (by norm_num) (by norm_num) (by decide) (Or.inr (Or.inl rfl))
  exact h.2 one_ne_zero _ (by decide)

/-- The two clock-sequence bytes depend only on `clockSeq % 32768`. -/
theorem byte6_mod32768 (clockSeq : Nat) :
    versionV8 <<< 4 ||| clockSeq >>> 8 % 256 =
      versionV8 <<< 4 ||| (clockSeq % 32768) >>> 8 % 256 := by
  show (128 : Nat) ||| clockSeq >>> 8 % 256 = 128 ||| (clockSeq % 32768) >>> 8 % 256
  rw [lor128_mod128 (by omega), lor128_mod128 (by omega)]
  simp only [Nat.shiftRight_eq_div_pow]
  omega

/-- **C3** (amended). The raw encode path masks the clock sequence to its
low 15 bits, not its low 12: `NewWithParams` returns the same result for
`clockSeq` and `clockSeq % 32768` (bit 15 is absorbed by the version OR,
but bits 12-14 alter byte 6), and it accepts out-of-range clock
sequences without error. -/
theorem C3_clockseq_masking (timestamp clockSeq : Nat) (node : List Nat)
    (timestampBits : Int) :
    NewWithParams timestamp clockSeq node timestampBits =
      NewWithParams timestamp (clockSeq % 32768) node timestampBits ∧
    (node.length = 6 →
      (timestampBits = TimestampBits32 ∨ timestampBits = TimestampBits48 ∨
        timestampBits = TimestampBits60) →
      ∃ s, NewWithParams timestamp clockSeq node timestampBits = .ok s) := by
  constructor
  · have h7 : clockSeq % 256 = clockSeq % 32768 % 256 := by omega
    unfold NewWithParams newWithParamsBytes
    rw [byte6_mod32768, h7]
  · intro hnode hw
    rcases hw with hw | hw | hw <;> subst hw
    · exact ⟨_, by rw [NewWithParams, newWithParamsBytes_32 _ _ _ hnode]; rfl⟩
    · exact ⟨_, by rw [NewWithParams, newWithParamsBytes_48 _ _ _ hnode]; rfl⟩
    · exact ⟨_, by rw [NewWithParams, newWithParamsBytes_60 _ _ _ hnode]; rfl⟩

/-- **C3** counterexample to the claim as stated: truncation is not mod
4096; `clock_seq = 4096` and `4096 % 4096 = 0` produce different
strings (bit 12 lands in the version nibble). -/
theorem C3_counterexample :
    NewWithParams 0 4096 [1, 2, 3, 4, 5, 6] TimestampBits48 ≠
      NewWithParams 0 (4096 % 4096) [1, 2, 3, 4, 5, 6] TimestampBits48 := by
  decide

/-- Witness for `C3_clockseq_masking` at a concrete input. -/
theorem C3_witness :
    NewWithParams 3 60000 [1, 2, 3, 4, 5, 6] TimestampBits48 =
      NewWithParams 3 (60000 % 32768) [1, 2, 3, 4, 5, 6] TimestampBits48 ∧
    ∃ s, NewWithParams 3 60000 [1, 2, 3, 4, 5, 6] TimestampBits48 = .ok s :=
  ⟨(C3_clockseq_masking 3 60000 [1, 2, 3, 4, 5, 6] TimestampBits48).1,
    (C3_clockseq_masking 3 60000 [1, 2, 3, 4, 5, 6] TimestampBits48).2
      (by norm_num) (Or.inr (Or.inl rfl))⟩

theorem buffer_bytes_lt (t0 t1 t2 t3 t4 t5 b6 b7 : Nat) (node : List Nat)
    (hb : ∀ x ∈ node, x < 256) (h0 : t0 < 256) (h1 : t1 < 256) (h2 : t2 < 256)
    (h3 : t3 < 256) (h4 : t4 < 256) (h5 : t5 < 256) (h6 : b6 < 256) (h7 : b7 < 256) :
    ∀ x ∈ [t0, t1, t2, t3, t4, t5, b6, b7] ++ node ++ [0, 0], x < 256 := by
  intro x hx
  simp only [List.mem_append, List.mem_cons, List.not_mem_nil, or_false] at hx
  rcases hx with (hx | hx) | rfl | rfl
  · rcases hx with rfl | rfl | rfl | rfl | rfl | rfl | rfl | rfl <;> omega
  · exact hb x hx
  · omega
  · omega

theorem formatUUID_length (u : List Nat) (h : u.length = 16) :
    (formatUUID u).length = 36 := by
  simp [formatUUID, length_bytesHex, h]

/-- Parse-of-format is the identity on genuine byte buffers. -/
theorem parseUUID_formatUUID_of_lt (u : List Nat) (h : u.length = 16)
    (hb : ∀ x ∈ u, x < 256) : parseUUID (formatUUID u) = .ok u := by
  rw [parseUUID_formatUUID u h]
  exact congrArg Except.ok
    ((List.map_congr_left fun x hx => Nat.mod_eq_of_lt (hb x hx)).trans (List.map_id u))

/-- **C4**. Text-form round trip: parsing the formatted string of any
16-byte buffer gives the buffer back byte for byte (no version/variant
inspection), and in particular this holds for every buffer the encoder
produces, for any clock sequence and any supported width. -/
theorem C4_text_roundtrip :
    (∀ u : List Nat, u.length = 16 → (∀ x ∈ u, x < 256) →
      parseUUID (formatUUID u) = .ok u) ∧
    ∀ timestamp clockSeq : Nat, ∀ node : List Nat, ∀ timestampBits : Int,
      node.length = 6 → (∀ x ∈ node, x < 256) →
      (timestampBits = TimestampBits32 ∨ timestampBits = TimestampBits48 ∨
        timestampBits = TimestampBits60) →
      ∃ b, newWithParamsBytes timestamp clockSeq node timestampBits = .ok b ∧
        parseUUID (formatUUID b) = .ok b := by
  refine ⟨parseUUID_formatUUID_of_lt, ?_⟩
  intro t cs node w hnode hb hw
  have hb6 : (128 : Nat) ||| cs >>> 8 % 256 < 256 := by
    rw [lor128_mod128 (by omega)]
    omega
  have hb7 : cs % 256 &&& 63 ||| 128 < 256 := by
    rw [byte7_variant_form]
    omega
  rcases hw with hw | hw | hw <;> subst hw
  · exact ⟨_, newWithParamsBytes_32 t cs node hnode,
      parseUUID_formatUUID_of_lt _ (buffer_length _ _ _ _ _ _ _ _ hnode)
        (buffer_bytes_lt _ _ _ _ _ _ _ _ node hb (by omega) (by omega) (by omega) (by omega)
          (by omega) (by omega) hb6 hb7)⟩
  · exact ⟨_, newWithParamsBytes_48 t cs node hnode,
      parseUUID_formatUUID_of_lt _ (buffer_length _ _ _ _ _ _ _ _ hnode)
        (buffer_bytes_lt _ _ _ _ _ _ _ _ node hb (by omega) (by omega) (by omega) (by omega)
          (by omega) (by omega) hb6 hb7)⟩
  · exact ⟨_, newWithParamsBytes_60 t cs node hnode,
      parseUUID_formatUUID_of_lt _ (buffer_length _ _ _ _ _ _ _ _ hnode)
        (buffer_bytes_lt _ _ _ _ _ _ _ _ node hb (by omega) (by omega) (by omega) (by omega)
          (by omega) (by omega) hb6 hb7)⟩

/-- Witness for `C4_text_roundtrip` at concrete inputs. -/
theorem C4_witness :
    parseUUID (formatUUID (List.range 16)) = .ok (List.range 16) ∧
    ∃ b, newWithParamsBytes 1 40000 [1, 2, 3, 4, 5, 6] TimestampBits48 = .ok b ∧
      parseUUID (formatUUID b) = .ok b :=
  ⟨C4_text_roundtrip.1 (List.range 16) (by decide) (by decide),
    C4_text_roundtrip.2 1 40000 [1, 2, 3, 4, 5, 6] TimestampBits48 (by decide) (by decide)
      (Or.inr (Or.inl rfl))⟩

theorem encodeTimestamp_unsupported (uuid : List Nat) (t : Nat) (w : Int)
    (h32 : w ≠ TimestampBits32) (h48 : w ≠ TimestampBits48) (h60 : w ≠ TimestampBits60) :
    encodeTimestamp uuid t w = .error "unsupported timestamp bit size" := by
  unfold encodeTimestamp
  rw [if_neg h32, if_neg h48, if_neg h60]

/-- **C6**. `NewWithParams` fails exactly when the node is not 6 bytes
(node-length error, checked first) or the width is unsupported
(width error); with a 6-byte node and a supported width it succeeds and
returns a non-empty string. -/
theorem C6_encoder_preconditions (timestamp clockSeq : Nat) (node : List Nat)
    (timestampBits : Int) :
    ((∃ e, NewWithParams timestamp clockSeq node timestampBits = .error e) ↔
      (node.length ≠ 6 ∨ (timestampBits ≠ TimestampBits32 ∧
        timestampBits ≠ TimestampBits48 ∧ timestampBits ≠ TimestampBits60))) ∧
    (node.length ≠ 6 →
      NewWithParams timestamp clockSeq node timestampBits = .error "node must be 6 bytes") ∧
    (node.length = 6 → timestampBits ≠ TimestampBits32 → timestampBits ≠ TimestampBits48 →
      timestampBits ≠ TimestampBits60 →
      NewWithParams timestamp clockSeq node timestampBits =
        .error "unsupported timestamp bit size") ∧
    (node.length = 6 →
      (timestampBits = TimestampBits32 ∨ timestampBits = TimestampBits48 ∨
        timestampBits = TimestampBits60) →
      ∃ s, NewWithParams timestamp clockSeq node timestampBits = .ok s ∧ s ≠ []) := by
  have hbad : node.length ≠ 6 →
      NewWithParams timestamp clockSeq node timestampBits = .error "node must be 6 bytes" := by
    intro h
    unfold NewWithParams newWithParamsBytes
    rw [if_pos h]
    rfl
  have hbadw : node.length = 6 → timestampBits ≠ TimestampBits32 →
      timestampBits ≠ TimestampBits48 → timestampBits ≠ TimestampBits60 →
      NewWithParams timestamp clockSeq node timestampBits =
        .error "unsupported timestamp bit size" := by
    intro h h32 h48 h60
    unfold NewWithParams newWithParamsBytes
    rw [if_neg (by omega), encodeTimestamp_unsupported _ _ _ h32 h48 h60]
    rfl
  have hok : node.length = 6 →
      (timestampBits = TimestampBits32 ∨ timestampBits = TimestampBits48 ∨
        timestampBits = TimestampBits60) →
      ∃ s, NewWithParams timestamp clockSeq node timestampBits = .ok s ∧ s ≠ [] := by
    intro h hw
    rcases hw with hw | hw | hw <;> subst hw
    · refine ⟨_, by rw [NewWithParams, newWithParamsBytes_32 _ _ _ h]; rfl, ?_⟩
      have hl := formatUUID_length _ (buffer_length (timestamp >>> 24 % 256)
        (timestamp >>> 16 % 256) (timestamp >>> 8 % 256) (timestamp % 256) 0 0
        (128 ||| clockSeq >>> 8 % 256) (clockSeq % 256 &&& 63 ||| 128) h)
      intro h0
      rw [h0] at hl
      simp at hl
    · refine ⟨_, by rw [NewWithParams, newWithParamsBytes_48 _ _ _ h]; rfl, ?_⟩
      have hl := formatUUID_length _ (buffer_length (timestamp >>> 40 % 256)
        (timestamp >>> 32 % 256) (timestamp >>> 24 % 256) (timestamp >>> 16 % 256)
        (timestamp >>> 8 % 256) (timestamp % 256)
        (128 ||| clockSeq >>> 8 % 256) (clockSeq % 256 &&& 63 ||| 128) h)
      intro h0
      rw [h0] at hl
      simp at hl
    · refine ⟨_, by rw [NewWithParams, newWithParamsBytes_60 _ _ _ h]; rfl, ?_⟩
      have hl := formatUUID_length _ (buffer_length (timestamp >>> 52 % 256)
        (timestamp >>> 44 % 256) (timestamp >>> 36 % 256) (timestamp >>> 28 % 256)
        (timestamp >>> 20 % 256) (timestamp >>> 12 % 256)
        (128 ||| clockSeq >>> 8 % 256) (clockSeq % 256 &&& 63 ||| 128) h)
      intro h0
      rw [h0] at hl
      simp at hl
  refine ⟨?_, hbad, hbadw, hok⟩
  constructor
  · rintro ⟨e, he⟩
    by_cases hn : node.length = 6
    · by_cases h32 : timestampBits = TimestampBits32
      · obtain ⟨s, hs, -⟩ := hok hn (Or.inl h32)
        rw [hs] at he
        exact absurd he (by simp)
      · by_cases h48 : timestampBits = TimestampBits48
        · obtain ⟨s, hs, -⟩ := hok hn (Or.inr (Or.inl h48))
          rw [hs] at he
          exact absurd he (by simp)
        · by_cases h60 : timestampBits = TimestampBits60
          · obtain ⟨s, hs, -⟩ := hok hn (Or.inr (Or.inr h60))
            rw [hs] at he
            exact absurd he (by simp)
          · exact Or.inr ⟨h32, h48, h60⟩
    · exact Or.inl hn
  · rintro (hn | ⟨h32, h48, h60⟩)
    · exact ⟨_, hbad hn⟩
    · by_cases hn : node.length = 6
      · exact ⟨_, hbadw hn h32 h48 h60⟩
      · exact ⟨_, hbad hn⟩

/-- Witness for `C6_encoder_preconditions` at concrete inputs. -/
theorem C6_witness :
    NewWithParams 1 2 [1, 2] TimestampBits48 = .error "node must be 6 bytes" ∧
    NewWithParams 1 2 [1, 2, 3, 4, 5, 6] 100 = .error "unsupported timestamp bit size" ∧
    ∃ s, NewWithParams 1 2 [1, 2, 3, 4, 5, 6] TimestampBits60 = .ok s ∧ s ≠ [] :=
  ⟨(C6_encoder_preconditions 1 2 [1, 2] TimestampBits48).2.1 (by decide),
    (C6_encoder_preconditions 1 2 [1, 2, 3, 4, 5, 6] 100).2.2.1 (by decide)
      (by decide) (by decide) (by decide),
    (C6_encoder_preconditions 1 2 [1, 2, 3, 4, 5, 6] TimestampBits60).2.2.2 (by decide)
      (Or.inr (Or.inr rfl))⟩

/-- `ToString` on a struct with a 6-byte node builds the same buffer as
the width-48 encoder. -/
theorem toString_eq (u : UUIDv8) (hnode : u.Node.length = 6) :
    ToString u = formatUUID ([u.Timestamp >>> 40 % 256, u.Timestamp >>> 32 % 256,
      u.Timestamp >>> 24 % 256, u.Timestamp >>> 16 % 256, u.Timestamp >>> 8 % 256,
      u.Timestamp % 256, 128 ||| u.ClockSeq >>> 8 % 256, u.ClockSeq % 256 &&& 63 ||| 128] ++
      u.Node ++ [0, 0]) := by
  unfold ToString
  show formatUUID (copySlice [u.Timestamp >>> 40 % 256, u.Timestamp >>> 32 % 256,
    u.Timestamp >>> 24 % 256, u.Timestamp >>> 16 % 256, u.Timestamp >>> 8 % 256,
    u.Timestamp % 256, 128 ||| u.ClockSeq >>> 8 % 256, u.ClockSeq % 256 &&& 63 ||| 128,
    0, 0, 0, 0, 0, 0, 0, 0] 8 u.Node) = _
  unfold copySlice
  simp only [hnode]
  norm_num
  rw [List.take_of_length_le (le_of_eq hnode)]

/-- **C5**. `MarshalJSON` fails exactly when the node is not 6 bytes, the
timestamp is zero or the clock sequence exceeds 4095; on success it
returns the JSON string (quote, canonical text form, quote) of
`ToString`. -/
theorem C5_marshal_gate (u : UUIDv8) (hb : ∀ x ∈ u.Node, x < 256) :
    ((∃ e, MarshalJSON u = .error e) ↔
      (u.Node.length ≠ 6 ∨ u.Timestamp = 0 ∨ u.ClockSeq > 4095)) ∧
    (u.Node.length = 6 → u.Timestamp ≠ 0 → u.ClockSeq ≤ 4095 →
      MarshalJSON u = .ok (34 :: ToString u ++ [34])) := by
  by_cases hg : u.Node.length ≠ 6 ∨ u.Timestamp = 0 ∨ u.ClockSeq > 0x0FFF
  · have herr : MarshalJSON u = .error "object is not a valid UUIDv8" := by
      rw [MarshalJSON, if_pos hg]
    constructor
    · exact ⟨fun _ => hg, fun _ => ⟨_, herr⟩⟩
    · intro h1 h2 h3
      rcases hg with h | h | h
      · exact absurd h1 h
      · exact absurd h h2
      · omega
  · push_neg at hg
    obtain ⟨hn, ht, hcs⟩ := hg
    have hcs' : u.ClockSeq ≤ 4095 := by omega
    have hts := toString_eq u hn
    rw [byte6_additive hcs', byte7_additive] at hts
    have hvalid : IsValidUUIDv8 (ToString u) = true := by
      rw [hts]
      exact buffer_isValid _ _ _ _ _ _ _ _ hcs' hn hb
        (by omega) (by omega) (by omega) (by omega) (by omega) (by omega)
    have hok : MarshalJSON u = .ok (34 :: ToString u ++ [34]) := by
      rw [MarshalJSON, if_neg (by push_neg; exact ⟨hn, ht, by omega⟩)]
      simp only [hvalid]
      rfl
    refine ⟨⟨?_, ?_⟩, fun _ _ _ => hok⟩
    · rintro ⟨e, he⟩
      rw [hok] at he
      exact absurd he (by simp)
    · rintro (h | h | h)
      · exact absurd hn h
      · exact absurd h ht
      · omega

/-- Witness for `C5_marshal_gate` at a concrete struct. -/
theorem C5_witness :
    MarshalJSON ⟨123456789, 0x0800, [1, 2, 3, 4, 5, 6]⟩ =
      .ok (34 :: ToString ⟨123456789, 0x0800, [1, 2, 3, 4, 5, 6]⟩ ++ [34]) :=
  (C5_marshal_gate ⟨123456789, 0x0800, [1, 2, 3, 4, 5, 6]⟩ (by decide)).2
    (by decide) (by decide) (by decide)

/-! ## Properties of successful parses -/

theorem fromHexChar_lt {c v : Nat} (h : fromHexChar c = some v) : v < 16 := by
  unfold fromHexChar at h
  split_ifs at h <;> (injection h with h; omega)

theorem hexDecode_ok_lt :
    ∀ (l r : List Nat), hexDecode l = .ok r → ∀ x ∈ r, x < 256
  | [], r, h => by
    simp only [hexDecode, Except.ok.injEq] at h
    subst h
    simp
  | [_], r, h => by
    simp [hexDecode] at h
  | a :: b :: rest, r, h => by
    simp only [hexDecode] at h
    cases ha : fromHexChar a with
    | none => rw [ha] at h; simp at h
    | some x =>
      cases hbb : fromHexChar b with
      | none => rw [ha, hbb] at h; simp at h
      | some y =>
        rw [ha, hbb] at h
        cases hr : hexDecode rest with
        | error e => rw [hr] at h; simp [Except.map] at h
        | ok r' =>
          rw [hr] at h
          simp only [Except.map, Except.ok.injEq] at h
          subst h
          intro z hz
          rcases List.mem_cons.mp hz with rfl | hz'
          · have hx := fromHexChar_lt ha
            have hy := fromHexChar_lt hbb
            rw [shiftLeft_lor_eq_add x 4 (by omega), Nat.shiftLeft_eq]
            omega
          · exact hexDecode_ok_lt rest r' hr z hz'

theorem hexDecode_ok_length :
    ∀ (l r : List Nat), hexDecode l = .ok r → 2 * r.length = l.length
  | [], r, h => by
    simp only [hexDecode, Except.ok.injEq] at h
    subst h
    rfl
  | [_], r, h => by
    simp [hexDecode] at h
  | a :: b :: rest, r, h => by
    simp only [hexDecode] at h
    cases ha : fromHexChar a with
    | none => rw [ha] at h; simp at h
    | some x =>
      cases hbb : fromHexChar b with
      | none => rw [ha, hbb] at h; simp at h
      | some y =>
        rw [ha, hbb] at h
        cases hr : hexDecode rest with
        | error e => rw [hr] at h; simp [Except.map] at h
        | ok r' =>
          rw [hr] at h
          simp only [Except.map, Except.ok.injEq] at h
          subst h
          have := hexDecode_ok_length rest r' hr
          simp only [List.length_cons]
          omega

theorem parseUUID_ok_length {s b : List Nat} (h : parseUUID s = .ok b) : b.length = 16 := by
  unfold parseUUID at h
  split_ifs at h with h32 h36 hdash
  · have := hexDecode_ok_length s b h
    omega
  · have := hexDecode_ok_length _ _ h
    have hlt : ((s.filter (fun c => c != 45)).length ≤ 36) := by
      calc (s.filter (fun c => c != 45)).length ≤ s.length := List.length_filter_le _ _
      _ = 36 := h36
    rw [List.length_take, List.length_append, List.length_replicate] at this
    omega

theorem parseUUID_ok_lt {s b : List Nat} (h : parseUUID s = .ok b) : ∀ x ∈ b, x < 256 := by
  unfold parseUUID at h
  split_ifs at h
  · exact hexDecode_ok_lt s b h
  · exact hexDecode_ok_lt _ _ h

theorem getD_lt_256 {b : List Nat} (hb : ∀ x ∈ b, x < 256) : ∀ i, b.getD i 0 < 256 := by
  induction b with
  | nil =>
    intro i
    simp [List.getD]
  | cons a l ih =>
    intro i
    cases i with
    | zero => simpa using hb a (by simp)
    | succ n =>
      rw [List.getD_cons_succ]
      exact ih (fun x hx => hb x (by simp [hx])) n

/-- **C7**. The decode step is total over successful parses and fixed
width: whenever `parseUUID` succeeds with bytes `b`, `FromString`
succeeds and returns the 48-bit big-endian integer of bytes 0-5 as the
timestamp, `(b[6] mod 16) * 256 + b[7]` as the clock sequence, and bytes
8-13 as the node. -/
theorem C7_decode_fixed_width (s b : List Nat) (hp : parseUUID s = .ok b) :
    FromString s = .ok ⟨b.getD 0 0 * 2 ^ 40 + b.getD 1 0 * 2 ^ 32 + b.getD 2 0 * 2 ^ 24 +
      b.getD 3 0 * 2 ^ 16 + b.getD 4 0 * 2 ^ 8 + b.getD 5 0,
      b.getD 6 0 % 16 * 256 + b.getD 7 0, (b.drop 8).take 6⟩ := by
  have hlt := getD_lt_256 (parseUUID_ok_lt hp)
  rw [FromString_parse_ok hp]
  simp only [Except.ok.injEq, UUIDv8.mk.injEq, and_true]
  refine ⟨?_, ?_⟩
  · rw [lor_bytes_eq_sum (hlt 0) (hlt 1) (hlt 2) (hlt 3) (hlt 4) (hlt 5)]
  · rw [show (0x0F : Nat) = 2 ^ 4 - 1 from rfl, Nat.and_pow_two_sub_one_eq_mod,
      shiftLeft_lor_eq_add _ 8 (by have := hlt 7; omega), Nat.shiftLeft_eq]

/-- Witness for `C7_decode_fixed_width` at a concrete input (the 32
hex characters of `0` repeated parse to the all-zero buffer). -/
theorem C7_witness :
    FromString (List.replicate 32 48) = .ok ⟨0, 0, [0, 0, 0, 0, 0, 0]⟩ := by
  have h := C7_decode_fixed_width (List.replicate 32 48) (List.replicate 16 0) (by decide)
  simpa using h

/-- **C10**. Every struct produced by a successful `FromString`, and
every non-`none` result of `FromStringOrNil`, has a clock sequence of at
most 4095 and a node of exactly 6 bytes. -/
theorem C10_parsed_invariants :
    (∀ s u, FromString s = .ok u → u.ClockSeq ≤ 4095 ∧ u.Node.length = 6) ∧
    (∀ s u, FromStringOrNil s = some u → u.ClockSeq ≤ 4095 ∧ u.Node.length = 6) := by
  have hcs : ∀ b : List Nat, (∀ x ∈ b, x < 256) →
      (b.getD 6 0 &&& 0x0F) <<< 8 ||| b.getD 7 0 ≤ 4095 := by
    intro b hb
    have h7 := getD_lt_256 hb 7
    have hand : b.getD 6 0 &&& 0x0F ≤ 15 := Nat.and_le_right
    have hor := Nat.or_lt_two_pow (x := (b.getD 6 0 &&& 0x0F) <<< 8) (y := b.getD 7 0)
      (n := 12) (by rw [Nat.shiftLeft_eq]; omega) (by omega)
    omega
  have hnd : ∀ b : List Nat, b.length = 16 → ((b.drop 8).take 6).length = 6 := by
    intro b hb
    simp [hb]
  constructor
  · intro s u hu
    unfold FromString at hu
    cases hp : parseUUID s with
    | error e => rw [hp] at hu; simp at hu
    | ok b =>
      rw [hp] at hu
      simp only [Except.ok.injEq] at hu
      subst hu
      exact ⟨hcs b (parseUUID_ok_lt hp), hnd b (parseUUID_ok_length hp)⟩
  · intro s u hu
    unfold FromStringOrNil at hu
    cases hp : parseUUID s with
    | error e => rw [hp] at hu; simp at hu
    | ok b =>
      rw [hp] at hu
      by_cases hz : isAllZeroUUID b
      · simp [hz] at hu
      · simp only [hz, Bool.false_eq_true, if_false, Option.some.injEq] at hu
        subst hu
        exact ⟨hcs b (parseUUID_ok_lt hp), hnd b (parseUUID_ok_length hp)⟩

/-- Witness for `C10_parsed_invariants` at concrete inputs. -/
theorem C10_witness :
    ((0 : Nat) ≤ 4095 ∧ ([0, 0, 0, 0, 0, 0] : List Nat).length = 6) ∧
    ((128 : Nat) ≤ 4095 ∧ ([1, 2, 3, 4, 5, 6] : List Nat).length = 6) :=
  ⟨C10_parsed_invariants.1 (List.replicate 32 48) ⟨0, 0, [0, 0, 0, 0, 0, 0]⟩ (by decide),
    C10_parsed_invariants.2 ((NewWithParams 1 0 [1, 2, 3, 4, 5, 6]
      TimestampBits48).toOption.getD []) ⟨1, 128, [1, 2, 3, 4, 5, 6]⟩
      (by decide)⟩

/-! ## Shape of the formatted string -/

theorem hexDigit_range {m : Nat} (hm : m < 16) :
    (48 ≤ hexDigit m ∧ hexDigit m ≤ 57) ∨ (97 ≤ hexDigit m ∧ hexDigit m ≤ 102) := by
  unfold hexDigit
  split <;> omega

theorem bytesHex_mem {l : List Nat} :
    ∀ c ∈ bytesHex l, (48 ≤ c ∧ c ≤ 57) ∨ (97 ≤ c ∧ c ≤ 102) := by
  induction l with
  | nil => simp [bytesHex]
  | cons b bs ih =>
    intro c hc
    rcases List.mem_cons.mp hc with rfl | hc
    · exact hexDigit_range (mod_sixteen_lt _)
    · rcases List.mem_cons.mp hc with rfl | hc
      · exact hexDigit_range (mod_sixteen_lt _)
      · exact ih c hc

/-- **C9**. `formatUUID` is a total function; on every 16-byte buffer its
output is exactly 36 bytes arranged as five lower-case-hex groups of
8, 4, 4, 4 and 12 digits joined by dashes - the shape of the regex
`[0-9a-f]{8}-[0-9a-f]{4}-[0-9a-f]{4}-[0-9a-f]{4}-[0-9a-f]{12}` - built
from the byte groups [0:4], [4:6], [6:8], [8:10], [10:16]. -/
theorem C9_format_canonical (u : List Nat) (h : u.length = 16) (hb : ∀ x ∈ u, x < 256) :
    (formatUUID u).length = 36 ∧
    formatUUID u = bytesHex (u.take 4) ++ [45] ++ bytesHex ((u.drop 4).take 2) ++ [45] ++
      bytesHex ((u.drop 6).take 2) ++ [45] ++ bytesHex ((u.drop 8).take 2) ++ [45] ++
      bytesHex ((u.drop 10).take 6) ∧
    (bytesHex (u.take 4)).length = 8 ∧ (bytesHex ((u.drop 4).take 2)).length = 4 ∧
    (bytesHex ((u.drop 6).take 2)).length = 4 ∧ (bytesHex ((u.drop 8).take 2)).length = 4 ∧
    (bytesHex ((u.drop 10).take 6)).length = 12 ∧
    ∀ c ∈ formatUUID u, c = 45 ∨ (48 ≤ c ∧ c ≤ 57) ∨ (97 ≤ c ∧ c ≤ 102) := by
  refine ⟨formatUUID_length u h, by rw [formatUUID_eq]; simp, ?_, ?_, ?_, ?_, ?_, ?_⟩
  · rw [length_bytesHex]
    simp [h]
  · rw [length_bytesHex]
    simp [h]
  · rw [length_bytesHex]
    simp [h]
  · rw [length_bytesHex]
    simp [h]
  · rw [length_bytesHex]
    simp [h]
  · intro c hc
    rw [formatUUID_eq] at hc
    simp only [List.mem_append, List.mem_cons, List.not_mem_nil, or_false,
      List.mem_singleton] at hc
    rcases hc with hc | rfl | hc | rfl | hc | rfl | hc | rfl | hc
    all_goals first
      | exact Or.inl rfl
      | exact Or.inr (bytesHex_mem c hc)


/-- Witness for `C9_format_canonical` at a concrete buffer. -/
theorem C9_witness :
    (formatUUID (List.range 16)).length = 36 ∧
    ∀ c ∈ formatUUID (List.range 16), c = 45 ∨ (48 ≤ c ∧ c ≤ 57) ∨ (97 ≤ c ∧ c ≤ 102) :=
  ⟨(C9_format_canonical (List.range 16) (by decide) (by decide)).1,
    (C9_format_canonical (List.range 16) (by decide) (by decide)).2.2.2.2.2.2.2⟩

/-! ## Hex acceptance characterization -/

theorem fromHexChar_eq_none_iff (c : Nat) : fromHexChar c = none ↔ ¬ isHexByte c := by
  unfold fromHexChar isHexByte
  split_ifs with h1 h2 h3
  · simp [h1]
  · simp [h2]
  · simp [h3]
  · simp [h1, h2, h3]

theorem fromHexChar_isSome_of_hex {c : Nat} (h : isHexByte c) : ∃ v, fromHexChar c = some v := by
  unfold fromHexChar
  split_ifs with h1 h2 h3
  · exact ⟨_, rfl⟩
  · exact ⟨_, rfl⟩
  · exact ⟨_, rfl⟩
  · exfalso
    unfold isHexByte at h
    omega

theorem hexDecode_ok_hex :
    ∀ (l r : List Nat), hexDecode l = .ok r → ∀ c ∈ l, isHexByte c
  | [], _, _ => by simp
  | [a], r, h => by simp [hexDecode] at h
  | a :: b :: rest, r, h => by
    simp only [hexDecode] at h
    cases ha : fromHexChar a with
    | none => rw [ha] at h; simp at h
    | some x =>
      cases hbb : fromHexChar b with
      | none => rw [ha, hbb] at h; simp at h
      | some y =>
        rw [ha, hbb] at h
        cases hr : hexDecode rest with
        | error e => rw [hr] at h; simp [Except.map] at h
        | ok r' =>
          intro c hc
          rcases List.mem_cons.mp hc with rfl | hc
          · by_contra hbad
            rw [(fromHexChar_eq_none_iff c).mpr hbad] at ha
            cases ha
          · rcases List.mem_cons.mp hc with rfl | hc
            · by_contra hbad
              rw [(fromHexChar_eq_none_iff c).mpr hbad] at hbb
              cases hbb
            · exact hexDecode_ok_hex rest r' hr c hc

theorem hexDecode_ok_of_hex :
    ∀ (l : List Nat), l.length % 2 = 0 → (∀ c ∈ l, isHexByte c) → ∃ r, hexDecode l = .ok r
  | [], _, _ => ⟨[], rfl⟩
  | [a], h, _ => by simp at h
  | a :: b :: rest, h, hhex => by
    obtain ⟨x, hx⟩ := fromHexChar_isSome_of_hex (hhex a (by simp))
    obtain ⟨y, hy⟩ := fromHexChar_isSome_of_hex (hhex b (by simp))
    obtain ⟨r, hrr⟩ := hexDecode_ok_of_hex rest
      (by simp only [List.length_cons] at h; omega)
      (fun c hc => hhex c (by simp [hc]))
    exact ⟨_, by simp only [hexDecode, hx, hy, hrr]; rfl⟩

theorem hexDecode_error_of_bad :
    ∀ (l : List Nat), l.length % 2 = 0 → (∃ c ∈ l, ¬ isHexByte c) →
      hexDecode l = .error "invalid byte"
  | [], _, hbad => by
    obtain ⟨c, hc, -⟩ := hbad
    simp at hc
  | [a], h, _ => by simp at h
  | a :: b :: rest, h, hbad => by
    by_cases ha : isHexByte a
    · obtain ⟨x, hx⟩ := fromHexChar_isSome_of_hex ha
      by_cases hb2 : isHexByte b
      · obtain ⟨y, hy⟩ := fromHexChar_isSome_of_hex hb2
        have hbadrest : ∃ c ∈ rest, ¬ isHexByte c := by
          obtain ⟨c, hc, hnc⟩ := hbad
          rcases List.mem_cons.mp hc with rfl | hc
          · exact absurd ha hnc
          · rcases List.mem_cons.mp hc with rfl | hc
            · exact absurd hb2 hnc
            · exact ⟨c, hc, hnc⟩
        have hrec := hexDecode_error_of_bad rest
          (by simp only [List.length_cons] at h; omega) hbadrest
        simp only [hexDecode, hx, hy, hrec]
        rfl
      · simp only [hexDecode, hx, (fromHexChar_eq_none_iff b).mpr hb2]
    · simp only [hexDecode, (fromHexChar_eq_none_iff a).mpr ha]

/-- **C8**. Parse acceptance and error taxonomy of `parseUUID`: a length
other than 32 and 36 is a length error; length 36 with a wrong byte at
position 8, 13, 18 or 23 is a format error; a 32-byte input parses
successfully exactly when every byte is a (case-insensitive) hex digit,
failing with the hex error otherwise; and a 36-byte dashed input - four
groups of 8, 4, 4, 4 and 12 data bytes separated by dashes - parses
successfully exactly when every data byte is a hex digit (a dash counts
as non-hex), failing with the hex error otherwise. -/
theorem C8_parse_taxonomy (s : List Nat) :
    (s.length ≠ 32 → s.length ≠ 36 → parseUUID s = .error "invalid UUID length") ∧
    (s.length = 36 →
      (s.getD 8 0 ≠ 45 ∨ s.getD 13 0 ≠ 45 ∨ s.getD 18 0 ≠ 45 ∨ s.getD 23 0 ≠ 45) →
      parseUUID s = .error "invalid UUID format") ∧
    (s.length = 32 →
      ((∃ b, parseUUID s = .ok b) ↔ ∀ c ∈ s, isHexByte c) ∧
      ((∃ c ∈ s, ¬ isHexByte c) → parseUUID s = .error "invalid byte")) ∧
    (∀ g1 g2 g3 g4 g5 : List Nat,
      g1.length = 8 → g2.length = 4 → g3.length = 4 → g4.length = 4 → g5.length = 12 →
      s = g1 ++ ([45] ++ (g2 ++ ([45] ++ (g3 ++ ([45] ++ (g4 ++ ([45] ++ g5))))))) →
      s.length = 36 ∧ s.getD 8 0 = 45 ∧ s.getD 13 0 = 45 ∧ s.getD 18 0 = 45 ∧
      s.getD 23 0 = 45 ∧
      ((∃ b, parseUUID s = .ok b) ↔ ∀ c ∈ g1 ++ (g2 ++ (g3 ++ (g4 ++ g5))), isHexByte c) ∧
      ((∃ c ∈ g1 ++ (g2 ++ (g3 ++ (g4 ++ g5))), ¬ isHexByte c) →
        parseUUID s = .error "invalid byte")) := by
  refine ⟨?_, ?_, ?_, ?_⟩
  · intro h32 h36
    unfold parseUUID
    rw [if_neg h32, if_neg h36]
  · intro h36 hd
    unfold parseUUID
    rw [if_neg (by omega), if_pos h36, if_pos hd]
  · intro h32
    have hpp : parseUUID s = hexDecode s := by
      unfold parseUUID
      rw [if_pos h32]
    have heven : s.length % 2 = 0 := by omega
    constructor
    · constructor
      · rintro ⟨b, hb⟩
        rw [hpp] at hb
        exact hexDecode_ok_hex s b hb
      · intro hall
        obtain ⟨r, hr⟩ := hexDecode_ok_of_hex s heven hall
        exact ⟨r, by rw [hpp, hr]⟩
    · intro hbad
      rw [hpp]
      exact hexDecode_error_of_bad s heven hbad
  · intro g1 g2 g3 g4 g5 hg1 hg2 hg3 hg4 hg5 heq
    subst heq
    have hb1 : g1.length = 8 := hg1
    have hlen36 : (g1 ++ ([45] ++ (g2 ++ ([45] ++ (g3 ++ ([45] ++
        (g4 ++ ([45] ++ g5)))))))).length = 36 := by
      simp [hg1, hg2, hg3, hg4, hg5]
    have hd8 : (g1 ++ ([45] ++ (g2 ++ ([45] ++ (g3 ++ ([45] ++
        (g4 ++ ([45] ++ g5)))))))).getD 8 0 = 45 := getD_middle _ _ _ _ hg1
    have hd13 : (g1 ++ ([45] ++ (g2 ++ ([45] ++ (g3 ++ ([45] ++
        (g4 ++ ([45] ++ g5)))))))).getD 13 0 = 45 := by
      rw [show (13 : Nat) = 8 + 5 from rfl, getD_skip _ _ 8 5 hg1,
        show (5 : Nat) = 1 + 4 from rfl, getD_skip [45] _ 1 4 rfl,
        getD_middle _ _ _ 4 hg2]
    have hd18 : (g1 ++ ([45] ++ (g2 ++ ([45] ++ (g3 ++ ([45] ++
        (g4 ++ ([45] ++ g5)))))))).getD 18 0 = 45 := by
      rw [show (18 : Nat) = 8 + 10 from rfl, getD_skip _ _ 8 10 hg1,
        show (10 : Nat) = 1 + 9 from rfl, getD_skip [45] _ 1 9 rfl,
        show (9 : Nat) = 4 + 5 from rfl, getD_skip _ _ 4 5 hg2,
        show (5 : Nat) = 1 + 4 from rfl, getD_skip [45] _ 1 4 rfl,
        getD_middle _ _ _ 4 hg3]
    have hd23 : (g1 ++ ([45] ++ (g2 ++ ([45] ++ (g3 ++ ([45] ++
        (g4 ++ ([45] ++ g5)))))))).getD 23 0 = 45 := by
      rw [show (23 : Nat) = 8 + 15 from rfl, getD_skip _ _ 8 15 hg1,
        show (15 : Nat) = 1 + 14 from rfl, getD_skip [45] _ 1 14 rfl,
        show (14 : Nat) = 4 + 10 from rfl, getD_skip _ _ 4 10 hg2,
        show (10 : Nat) = 1 + 9 from rfl, getD_skip [45] _ 1 9 rfl,
        show (9 : Nat) = 4 + 5 from rfl, getD_skip _ _ 4 5 hg3,
        show (5 : Nat) = 1 + 4 from rfl, getD_skip [45] _ 1 4 rfl,
        getD_middle _ _ _ 4 hg4]
    have hGlen : (g1 ++ (g2 ++ (g3 ++ (g4 ++ g5)))).length = 32 := by
      simp [hg1, hg2, hg3, hg4, hg5]
    have hpp : parseUUID (g1 ++ ([45] ++ (g2 ++ ([45] ++ (g3 ++ ([45] ++
        (g4 ++ ([45] ++ g5)))))))) =
        hexDecode (((g1 ++ ([45] ++ (g2 ++ ([45] ++ (g3 ++ ([45] ++
          (g4 ++ ([45] ++ g5)))))))).filter (fun c => c != 45) ++
          List.replicate 32 0).take 32) := by
      unfold parseUUID
      rw [if_neg (by omega), if_pos hlen36,
        if_neg (by push_neg; exact ⟨hd8, hd13, hd18, hd23⟩)]
    have hfilter : (g1 ++ ([45] ++ (g2 ++ ([45] ++ (g3 ++ ([45] ++
        (g4 ++ ([45] ++ g5)))))))).filter (fun c => c != 45) =
        (g1 ++ (g2 ++ (g3 ++ (g4 ++ g5)))).filter (fun c => c != 45) := by
      simp [List.filter_append]
    have herr : (∃ c ∈ g1 ++ (g2 ++ (g3 ++ (g4 ++ g5))), ¬ isHexByte c) →
        parseUUID (g1 ++ ([45] ++ (g2 ++ ([45] ++ (g3 ++ ([45] ++
          (g4 ++ ([45] ++ g5)))))))) = .error "invalid byte" := by
      rintro ⟨c, hcG, hnc⟩
      by_cases hdash : ∀ d ∈ g1 ++ (g2 ++ (g3 ++ (g4 ++ g5))), d ≠ 45
      · have hfid : (g1 ++ (g2 ++ (g3 ++ (g4 ++ g5)))).filter (fun c => c != 45) =
            g1 ++ (g2 ++ (g3 ++ (g4 ++ g5))) :=
          List.filter_eq_self.mpr (fun a ha => by simpa using hdash a ha)
        have hlenF : ((g1 ++ ([45] ++ (g2 ++ ([45] ++ (g3 ++ ([45] ++
            (g4 ++ ([45] ++ g5)))))))).filter (fun c => c != 45)).length = 32 := by
          rw [hfilter, hfid, hGlen]
        rw [hpp, List.take_left' hlenF, hfilter, hfid]
        exact hexDecode_error_of_bad _ (by omega) ⟨c, hcG, hnc⟩
      · push_neg at hdash
        obtain ⟨d, hdm, hd45⟩ := hdash
        have hle := List.length_filter_le (fun c => c != 45) (g1 ++ (g2 ++ (g3 ++ (g4 ++ g5))))
        have hne : ((g1 ++ (g2 ++ (g3 ++ (g4 ++ g5)))).filter
            (fun c => c != 45)).length ≠ (g1 ++ (g2 ++ (g3 ++ (g4 ++ g5)))).length := by
          intro hEq
          have := List.filter_length_eq_length.mp hEq d hdm
          simp [hd45] at this
        have hFlt : ((g1 ++ (g2 ++ (g3 ++ (g4 ++ g5)))).filter
            (fun c => c != 45)).length < 32 := by omega
        have htake : (((g1 ++ (g2 ++ (g3 ++ (g4 ++ g5)))).filter (fun c => c != 45)) ++
            List.replicate 32 0).take 32 =
            ((g1 ++ (g2 ++ (g3 ++ (g4 ++ g5)))).filter (fun c => c != 45)) ++
            List.replicate (32 - ((g1 ++ (g2 ++ (g3 ++ (g4 ++ g5)))).filter
              (fun c => c != 45)).length) 0 := by
          rw [List.take_append_eq_append_take, List.take_of_length_le (by omega),
            List.take_replicate]
          have hmin : min (32 - ((g1 ++ (g2 ++ (g3 ++ (g4 ++ g5)))).filter
              (fun c => c != 45)).length) 32 =
              32 - ((g1 ++ (g2 ++ (g3 ++ (g4 ++ g5)))).filter
              (fun c => c != 45)).length := by omega
          rw [hmin]
        rw [hpp, hfilter, htake]
        refine hexDecode_error_of_bad _ ?_ ⟨0, ?_, ?_⟩
        · simp only [List.length_append, List.length_replicate]
          omega
        · exact List.mem_append.mpr (Or.inr (List.mem_replicate.mpr ⟨by omega, rfl⟩))
        · unfold isHexByte
          omega
    have hok : (∀ c ∈ g1 ++ (g2 ++ (g3 ++ (g4 ++ g5))), isHexByte c) →
        ∃ b, parseUUID (g1 ++ ([45] ++ (g2 ++ ([45] ++ (g3 ++ ([45] ++
          (g4 ++ ([45] ++ g5)))))))) = .ok b := by
      intro hall
      have hfid : (g1 ++ (g2 ++ (g3 ++ (g4 ++ g5)))).filter (fun c => c != 45) =
          g1 ++ (g2 ++ (g3 ++ (g4 ++ g5))) :=
        List.filter_eq_self.mpr (fun a ha => by
          have := hall a ha
          unfold isHexByte at this
          simp only [bne_iff_ne, ne_eq]
          omega)
      have hlenF : ((g1 ++ ([45] ++ (g2 ++ ([45] ++ (g3 ++ ([45] ++
          (g4 ++ ([45] ++ g5)))))))).filter (fun c => c != 45)).length = 32 := by
        rw [hfilter, hfid, hGlen]
      obtain ⟨r, hr⟩ := hexDecode_ok_of_hex (g1 ++ (g2 ++ (g3 ++ (g4 ++ g5)))) (by omega) hall
      refine ⟨r, ?_⟩
      rw [hpp, List.take_left' hlenF, hfilter, hfid, hr]
    refine ⟨hlen36, hd8, hd13, hd18, hd23, ⟨?_, hok⟩, herr⟩
    rintro ⟨b, hb⟩
    by_contra hnot
    push_neg at hnot
    obtain ⟨c, hcG, hnc⟩ := hnot
    rw [herr ⟨c, hcG, hnc⟩] at hb
    cases hb

/-- Witness for `C8_parse_taxonomy` at concrete inputs, one per branch:
wrong length, wrong dash, all-hex 32-form, non-hex 32-form, and a dashed
36-form with upper-case hex digits. -/
theorem C8_witness :
    parseUUID [48, 49] = .error "invalid UUID length" ∧
    parseUUID (List.replicate 36 48) = .error "invalid UUID format" ∧
    (∃ b, parseUUID (List.replicate 32 97) = .ok b) ∧
    parseUUID (List.replicate 32 103) = .error "invalid byte" ∧
    ∃ b, parseUUID (List.replicate 8 65 ++ ([45] ++ (List.replicate 4 48 ++ ([45] ++
      (List.replicate 4 48 ++ ([45] ++ (List.replicate 4 48 ++ ([45] ++
      List.replicate 12 48)))))))) = .ok b :=
  ⟨(C8_parse_taxonomy [48, 49]).1 (by decide) (by decide),
    (C8_parse_taxonomy (List.replicate 36 48)).2.1 (by decide) (Or.inl (by decide)),
    ((C8_parse_taxonomy (List.replicate 32 97)).2.2.1 (by decide)).1.mpr (by decide),
    ((C8_parse_taxonomy (List.replicate 32 103)).2.2.1 (by decide)).2 (by decide),
    ((C8_parse_taxonomy _).2.2.2 (List.replicate 8 65) (List.replicate 4 48)
      (List.replicate 4 48) (List.replicate 4 48) (List.replicate 12 48)
      (by decide) (by decide) (by decide) (by decide) (by decide)
      rfl).2.2.2.2.2.1.mpr (by decide)⟩

end uuidv8
